import Mathlib

/-!
# TxListener (src/app/execution/txListener.js)

A shallow embedding of the transaction listener: the polling tick, the
per-block resolution barrier, contract matching by bytecode, selector
matching and argument decoding, and the two resolution caches.

Conventions of the embedding.

* JavaScript strings are `String`; `null`/`undefined` are `none`.
* A JavaScript object used as a dictionary is an association list in the
  object's `for ... in` iteration order; a read `o[k]` is `jsGet o k`, a
  write `o[k] = v` is `jsSet o k v`.
* The field `to` of a transaction or resolved call is written `to_`.
* Block numbers are `Int` (the code computes `blockNumber - 1`).
* A thrown exception is the `error` side of `Except JsError`.
* Calls into the environment whose result arrives in a later callback
  (`getBlockNumber`, `getBlock`, `getCode`, `resolveReceipt`) split the
  embedding of a method in two: the part that runs up to the call, and the
  body of the callback, a function of the state at arrival and the reply.
* The libraries the file requires are parameters: `compareByteCode`
  (`remix.util.code.compareByteCode`) and `rawDecode`
  (`ethJSABI.rawDecode(types, ethJSUtil.toBuffer('0x' + data))`).
  `JSON.parse(contract.interface)` is the `interface` field itself, an
  already parsed ABI.
-/

namespace TxListener

/-! ## JavaScript helpers -/

/-- Exceptions the embedded code can throw. -/
inductive JsError where
  | typeError (msg : String)
  | decodeError (msg : String)
  | callbackAlreadyCalled
  deriving DecidableEq

/-- A string-or-null value under a truthiness test: `some s` when the value is
truthy, `none` when it is `null`, `undefined` or the empty string. -/
def truthy : Option String → Option String
  | none => none
  | some s => if s = "" then none else some s

/-- Read `o[k]` of a dictionary object. -/
def jsGet {α : Type} : List (String × α) → String → Option α
  | [], _ => none
  | (k', v) :: rest, k => if k' = k then some v else jsGet rest k

/-- Write `o[k] = v` of a dictionary object: an existing key keeps its place. -/
def jsSet {α : Type} : List (String × α) → String → α → List (String × α)
  | [], k, v => [(k, v)]
  | (k', v') :: rest, k, v => if k' = k then (k', v) :: rest else (k', v') :: jsSet rest k v

/-- Removes the first occurrence of the two characters `0x`. -/
def dropFirst0x : List Char → List Char
  | [] => []
  | [c] => [c]
  | c :: d :: rest => if c = '0' ∧ d = 'x' then rest else c :: dropFirst0x (d :: rest)

/-- The call `s.replace('0x', '')`. -/
def replace0x (s : String) : String := ⟨dropFirst0x s.data⟩

/-- The call `s.substring(0, n)`. -/
def substringTo (s : String) (n : Nat) : String := ⟨s.data.take n⟩

/-- The call `s.substring(n)`. -/
def substringFrom (s : String) (n : Nat) : String := ⟨s.data.drop n⟩

/-- The expression `'0x' + v`; an undefined `v` prints as `undefined`. -/
def concat0x : Option String → String
  | some b => "0x" ++ b
  | none => "0xundefined"

/-! ## Data model -/

/-- One input of an ABI entry. -/
structure AbiInput where
  name : String
  type : String
  deriving DecidableEq

/-- One entry of a contract's JSON ABI; `name` and `inputs` may be absent. -/
structure AbiEntry where
  name : Option String
  type : String
  inputs : Option (List AbiInput)
  deriving DecidableEq

/-- A compiled contract as the artifact provider hands it over. -/
structure CompiledContract where
  interface : List AbiEntry
  bytecode : Option String
  runtimeBytecode : Option String
  functionHashes : List (String × String)
  deriving DecidableEq

/-- The result of `this._api.contracts()` when it is not null: name to contract. -/
abbrev Contracts := List (String × CompiledContract)

/-- The two bytecode fields `_tryResolveContract` is called with. -/
inductive BytecodeField where
  | bytecode
  | runtimeBytecode
  deriving DecidableEq

/-- The read `contract[type]`. -/
def CompiledContract.field (c : CompiledContract) : BytecodeField → Option String
  | .bytecode => c.bytecode
  | .runtimeBytecode => c.runtimeBytecode

/-- A transaction as the environment returns it. -/
structure Transaction where
  hash : String
  to_ : Option String
  input : String
  deriving DecidableEq

/-- A block as `_newBlock` receives it. -/
structure Block where
  type : String
  number : Int
  transactions : List Transaction
  deriving DecidableEq

/-- An entry of `_resolvedTransactions`. -/
structure ResolvedCall (V : Type) where
  contractName : String
  to_ : Option String
  fn : String
  params : Option (List V)
  contractAddress : Option String := none
  deriving DecidableEq

/-- The object `_resolveTx` passes to its callback as `resolvedData`. -/
structure ResolvedData (V : Type) where
  to_ : Option String
  contractName : String
  function : ResolvedCall V
  creationAddress : Option String := none
  deriving DecidableEq

/-- The value of `this.loopId` when it is not null. -/
inductive LoopId where
  | vmListener
  | interval (id : Nat)
  deriving DecidableEq

/-- The calls `this.event.trigger(name, args)`. -/
inductive Notification (V : Type) where
  | newBlock (block : Block)
  | newTransaction (tx : Transaction)
  | txResolved (tx : Transaction) (resolvedData : ResolvedData V)
  deriving DecidableEq

/-- The fields of a `TxListener`, and the notifications triggered so far. -/
structure State (V : Type) where
  blocks : List Block
  lastBlock : Option Int
  loopId : Option LoopId
  _resolvedTransactions : List (String × ResolvedCall V)
  _resolvedContracts : List (String × String)
  emitted : List (Notification V)
  deriving DecidableEq

/-- The write `this._resolvedTransactions[txHash] = r`. -/
def State.setTransaction {V : Type} (st : State V) (txHash : String) (r : ResolvedCall V) :
    State V :=
  { st with _resolvedTransactions := jsSet st._resolvedTransactions txHash r }

/-- The write `this._resolvedContracts[address] = contractName`. -/
def State.setContract {V : Type} (st : State V) (address contractName : String) : State V :=
  { st with _resolvedContracts := jsSet st._resolvedContracts address contractName }

/-! ## Contract matcher -/

/-- Method `_tryResolveContract (codeToResolve, compiledContracts, type)`. -/
def _tryResolveContract (compareByteCode : String → String → Bool) (codeToResolve : String) :
    Contracts → BytecodeField → Option String
  | [], _ => none
  | (k, c) :: rest, type =>
    if compareByteCode codeToResolve (concat0x (c.field type)) then some k
    else _tryResolveContract compareByteCode codeToResolve rest type

/-! ## Call decoder -/

/-- The expression `fnName.split('(')[0]`. -/
def splitParen0 (fnName : String) : String := ⟨fnName.data.takeWhile (fun c => c != '(')⟩

/-- Function `getConstructorInterface (abi)`. -/
def getConstructorInterface (abi : List AbiEntry) : AbiEntry :=
  match abi.find? (fun e => e.type == "constructor") with
  | some e => { name := some "", type := "constructor", inputs := some (e.inputs.getD []) }
  | none => { name := some "", type := "constructor", inputs := some [] }

/-- Function `getFunction (abi, fnName)`. -/
def getFunction (abi : List AbiEntry) (fnName : String) : Option AbiEntry :=
  let fnName := splitParen0 fnName
  abi.find? (fun e => e.name == some fnName)

/-- Method `_decodeInputParams (data, abi)`; reading `inputs` of `null`, or `length` of
an absent `inputs`, throws a TypeError. -/
def _decodeInputParams {V : Type} (rawDecode : List String → String → Except JsError (List V))
    (data : String) (abi : Option AbiEntry) : Except JsError (List V) :=
  match abi with
  | none => .error (.typeError "cannot read inputs of null")
  | some f =>
    match f.inputs with
    | none => .error (.typeError "cannot read length of undefined")
    | some inputs => rawDecode (inputs.map (fun i => i.type)) data

/-- Method `_resolveFunction (contractName, compiledContracts, tx, isCtor)`: the new
state and the returned entry, or the exception thrown before any write. -/
def _resolveFunction {V : Type} (rawDecode : List String → String → Except JsError (List V))
    (st : State V) (contractName : String) (compiledContracts : Contracts) (tx : Transaction)
    (isCtor : Bool) : Except JsError (State V × ResolvedCall V) :=
  match jsGet compiledContracts contractName with
  | none => .error (.typeError "cannot read interface of undefined")
  | some c =>
    let abi := c.interface
    let inputData := replace0x tx.input
    if !isCtor then
      match c.functionHashes.find? (fun h => h.2 == substringTo inputData 8) with
      | some (fn, _) =>
        match _decodeInputParams rawDecode (substringFrom inputData 8) (getFunction abi fn) with
        | .error e => .error e
        | .ok params =>
          let r : ResolvedCall V :=
            { contractName := contractName, to_ := tx.to_, fn := fn, params := some params }
          .ok (st.setTransaction tx.hash r, r)
      | none =>
        let r : ResolvedCall V :=
          { contractName := contractName, to_ := tx.to_, fn := "(fallback)", params := none }
        .ok (st.setTransaction tx.hash r, r)
    else
      match truthy c.bytecode with
      | some bytecode =>
        match _decodeInputParams rawDecode (substringFrom inputData bytecode.length)
            (some (getConstructorInterface abi)) with
        | .error e => .error e
        | .ok params =>
          let r : ResolvedCall V :=
            { contractName := contractName, to_ := none, fn := "(constructor)", params := some params }
          .ok (st.setTransaction tx.hash r, r)
      | none =>
        let r : ResolvedCall V :=
          { contractName := contractName, to_ := none, fn := "(constructor)", params := none }
        .ok (st.setTransaction tx.hash r, r)

/-! ## Resolution cache -/

/-- Method `resolvedContract (address)`. -/
def resolvedContract {V : Type} (st : State V) (address : String) : Option String :=
  jsGet st._resolvedContracts address

/-- Method `resolvedTransaction (txHash)`. -/
def resolvedTransaction {V : Type} (st : State V) (txHash : String) : Option (ResolvedCall V) :=
  jsGet st._resolvedTransactions txHash

/-! ## Transaction resolution -/

/-- The arguments `_resolveTx` calls its callback with: `cb()` is both absent. -/
structure CbArgs (V : Type) where
  error : Option String
  resolvedData : Option (ResolvedData V)
  deriving DecidableEq

/-- How a run of `_resolveTx`, or of one of its callbacks, ends: it calls `cb`, or an
exception escapes. The state is the listener's at that point. -/
inductive TxDone (V : Type) where
  | called (st : State V) (args : CbArgs V)
  | thrown (st : State V) (e : JsError)
  deriving DecidableEq

/-- What the synchronous part of `_resolveTx` does: it ends, or it returns after
issuing `this._api.resolveReceipt(tx, ...)` or `web3().eth.getCode(tx.to, ...)`, the
state untouched; the callback keeps `contracts` (and `contractName`) in its closure. -/
inductive TxStep (V : Type) where
  | done (d : TxDone V)
  | resolveReceipt (contracts : Contracts) (contractName : String)
  | getCode (contracts : Contracts) (address : String)
  deriving DecidableEq

/-- Method `_resolveTx (tx, cb)` up to its return; `contracts` is the value of
`this._api.contracts()`. -/
def _resolveTx {V : Type} (compareByteCode : String → String → Bool)
    (rawDecode : List String → String → Except JsError (List V))
    (st : State V) (contracts : Option Contracts) (tx : Transaction) : TxStep V :=
  match contracts with
  | none => .done (.called st ⟨none, none⟩)
  | some contracts =>
    match truthy tx.to_ with
    | none =>
      let code := tx.input
      match truthy (_tryResolveContract compareByteCode code contracts .bytecode) with
      | some contractName => .resolveReceipt contracts contractName
      | none => .done (.called st ⟨none, none⟩)
    | some to_ =>
      match truthy (jsGet st._resolvedContracts to_) with
      | none => .getCode contracts to_
      | some contractName =>
        match _resolveFunction rawDecode st contractName contracts tx false with
        | .error e => .done (.thrown st e)
        | .ok (st', fn) =>
          .done (.called st' ⟨none, some { to_ := tx.to_, contractName := contractName, function := fn }⟩)

/-- The callback `(error, receipt) => ...` of `resolveReceipt` in `_resolveTx`; the reply
is the error or `receipt.contractAddress`. The entry stored under `tx.hash` and the
returned `fun` are one object, so both get `contractAddress`. -/
def _resolveTx_onReceipt {V : Type} (rawDecode : List String → String → Except JsError (List V))
    (st : State V) (contracts : Contracts) (tx : Transaction) (contractName : String)
    (reply : Except String String) : TxDone V :=
  match reply with
  | .error error => .called st ⟨some error, none⟩
  | .ok address =>
    let st1 := st.setContract address contractName
    match _resolveFunction rawDecode st1 contractName contracts tx true with
    | .error e => .thrown st1 e
    | .ok (st2, fn) =>
      match jsGet st2._resolvedTransactions tx.hash with
      | some r =>
        let st3 := st2.setTransaction tx.hash { r with contractAddress := some address }
        let fn' : ResolvedCall V := { fn with contractAddress := some address }
        let data : ResolvedData V :=
          { to_ := none, contractName := contractName, function := fn', creationAddress := some address }
        .called st3 ⟨none, some data⟩
      | none =>
        let data : ResolvedData V :=
          { to_ := none, contractName := contractName, function := fn, creationAddress := some address }
        .called st2 ⟨none, some data⟩

/-- The callback `(error, code) => ...` of `getCode` in `_resolveTx`; it is only created
where `tx.to` is truthy, so the key `tx.to` of the index write is a string. -/
def _resolveTx_onCode {V : Type} (compareByteCode : String → String → Bool)
    (rawDecode : List String → String → Except JsError (List V))
    (st : State V) (contracts : Contracts) (tx : Transaction)
    (reply : Except String (Option String)) : TxDone V :=
  match reply with
  | .error error => .called st ⟨some error, none⟩
  | .ok code =>
    match truthy code with
    | none => .called st ⟨none, none⟩
    | some code =>
      match truthy (_tryResolveContract compareByteCode code contracts .runtimeBytecode) with
      | none => .called st ⟨none, none⟩
      | some contractName =>
        let st1 := st.setContract (tx.to_.getD "") contractName
        match _resolveFunction rawDecode st1 contractName contracts tx false with
        | .error e => .thrown st1 e
        | .ok (st2, fn) =>
          .called st2 ⟨none, some { to_ := tx.to_, contractName := contractName, function := fn }⟩

/-! ## Resolution pipeline

`async.each(coll, iteratee, callback)` of the `async` package calls `iteratee(item, cb)`
for every item in order; it calls `callback` once: at once with the first error an
iteratee passes to its `cb`, and otherwise when every `cb` has been called. A `cb`
called a second time throws. -/

/-- What an environment call issued by `_resolveTx` waits for. -/
inductive Awaiting where
  | receipt (contractName : String)
  | code
  deriving DecidableEq

/-- An environment call in flight for one transaction, with what its callback captured. -/
structure PendingTx where
  tx : Transaction
  contracts : Contracts
  awaiting : Awaiting
  deriving DecidableEq

/-- The bookkeeping of one `async.each` call made by `_resolve`: the block, the number of
iteratee callbacks not called yet, whether the final callback has run, and the
environment calls of the block still in flight. -/
structure EachRun where
  block : Block
  remaining : Nat
  finished : Bool
  pending : List PendingTx
  deriving DecidableEq

/-- A reply of the environment to a call in flight. -/
inductive Reply where
  | receipt (r : Except String String)
  | code (r : Except String (Option String))

/-- The call `this.event.trigger(...)`. -/
def trigger {V : Type} (st : State V) (n : Notification V) : State V :=
  { st with emitted := st.emitted ++ [n] }

/-- The final callback of `async.each` in `_resolve`, which runs `callback()`, that is
`this.event.trigger('newBlock', [block])`; `async.each` calls it once. -/
def eachFinal {V : Type} (st : State V) (run : EachRun) : State V × EachRun :=
  if run.finished then (st, run)
  else (trigger st (.newBlock run.block), { run with finished := true })

/-- The first call of the `cb` that `async.each` hands to the iteratee. -/
def eachDone {V : Type} (st : State V) (run : EachRun) (err : Option String) : State V × EachRun :=
  match err with
  | some _ => eachFinal st run
  | none =>
    let run' := { run with remaining := run.remaining - 1 }
    if run'.remaining = 0 then eachFinal st run' else (st, run')

/-- The callback `(error, resolvedData) => ...` that `_resolve` passes to `_resolveTx`.
After `cb(error)` the closing `cb()` is a second call, which throws. -/
def _resolve_onTx {V : Type} (st : State V) (run : EachRun) (tx : Transaction) (args : CbArgs V) :
    State V × EachRun × Option JsError :=
  let (st1, run1) :=
    match args.error with
    | some error => eachDone st run (some error)
    | none => (st, run)
  let st2 :=
    match args.resolvedData with
    | some resolvedData => trigger st1 (.txResolved tx resolvedData)
    | none => st1
  let st3 := trigger st2 (.newTransaction tx)
  match args.error with
  | some _ => (st3, run1, some .callbackAlreadyCalled)
  | none =>
    let (st4, run4) := eachDone st3 run1 none
    (st4, run4, none)

/-- The iteration of `async.each` over `block.transactions`: every transaction runs
`_resolveTx` up to its return; an exception escapes the iteration. -/
def _resolve_each {V : Type} (compareByteCode : String → String → Bool)
    (rawDecode : List String → String → Except JsError (List V)) (contracts : Option Contracts) :
    State V → EachRun → List Transaction → State V × EachRun × Option JsError
  | st, run, [] => (st, run, none)
  | st, run, tx :: rest =>
    match _resolveTx compareByteCode rawDecode st contracts tx with
    | .done (.called st' args) =>
      match _resolve_onTx st' run tx args with
      | (st2, run2, some e) => (st2, run2, some e)
      | (st2, run2, none) => _resolve_each compareByteCode rawDecode contracts st2 run2 rest
    | .done (.thrown st' e) => (st', run, some e)
    | .resolveReceipt cs contractName =>
      _resolve_each compareByteCode rawDecode contracts st
        { run with pending := run.pending ++ [⟨tx, cs, .receipt contractName⟩] } rest
    | .getCode cs _ =>
      _resolve_each compareByteCode rawDecode contracts st
        { run with pending := run.pending ++ [⟨tx, cs, .code⟩] } rest

/-- Method `_resolve (block, callback)` with the `callback` of `_newBlock`, up to its
return. -/
def _resolve {V : Type} (compareByteCode : String → String → Bool)
    (rawDecode : List String → String → Except JsError (List V)) (st : State V)
    (contracts : Option Contracts) (block : Block) : State V × EachRun × Option JsError :=
  let run : EachRun :=
    { block := block, remaining := block.transactions.length, finished := false, pending := [] }
  match block.transactions with
  | [] =>
    let (st', run') := eachFinal st run
    (st', run', none)
  | txs => _resolve_each compareByteCode rawDecode contracts st run txs

/-- Method `_newBlock (block)` up to its return. -/
def _newBlock {V : Type} (compareByteCode : String → String → Bool)
    (rawDecode : List String → String → Except JsError (List V)) (st : State V)
    (contracts : Option Contracts) (block : Block) : State V × EachRun × Option JsError :=
  _resolve compareByteCode rawDecode { st with blocks := st.blocks ++ [block] } contracts block

/-- The arrival of the reply to the `i`-th environment call in flight of a block: the
callback of `_resolveTx` runs, then the callback of `_resolve`. A reply of the other
kind, or to no call, is no arrival. -/
def deliver {V : Type} (compareByteCode : String → String → Bool)
    (rawDecode : List String → String → Except JsError (List V)) (st : State V) (run : EachRun)
    (i : Nat) (reply : Reply) : State V × EachRun × Option JsError :=
  match run.pending.get? i with
  | none => (st, run, none)
  | some p =>
    let run' := { run with pending := run.pending.eraseIdx i }
    let d : Option (TxDone V) :=
      match p.awaiting, reply with
      | .receipt contractName, .receipt r =>
        some (_resolveTx_onReceipt rawDecode st p.contracts p.tx contractName r)
      | .code, .code r => some (_resolveTx_onCode compareByteCode rawDecode st p.contracts p.tx r)
      | _, _ => none
    match d with
    | none => (st, run, none)
    | some (.called st' args) => _resolve_onTx st' run' p.tx args
    | some (.thrown st' e) => (st', run', some e)

/-! ## Block scheduler -/

/-- Method `init ()`. -/
def init {V : Type} (st : State V) : State V :=
  { st with blocks := [], lastBlock := none }

/-- Method `stopListening ()`; `clearInterval` only stops the host timer. -/
def stopListening {V : Type} (st : State V) : State V :=
  { st with loopId := none }

/-- Method `startListening ()`; `provider` is `executionContext.getProvider()` and
`timer` the handle `setInterval` returns. -/
def startListening {V : Type} (st : State V) (provider : String) (timer : Nat) : State V :=
  let st := init (stopListening st)
  if provider = "vm" then { st with loopId := some .vmListener }
  else { st with loopId := some (.interval timer) }

/-- The state `new TxListener(opt)` starts from. -/
def new {V : Type} : State V :=
  init { blocks := [], lastBlock := none, loopId := none, _resolvedTransactions := [],
         _resolvedContracts := [], emitted := [] }

/-- The test `!this.lastBlock`: true for `null` and for `0`. -/
def lastBlockFalsy : Option Int → Bool
  | none => true
  | some n => n == 0

/-- The loop `while (blockNumber >= current) ... current++` of the tick: the arguments of
the calls `this._manageBlock(current)`, in order. `fuel` bounds the iterations; the
tick passes `blockNumber + 1 - current`, with which the loop runs to its end
(`whileLoop_eq`). -/
def whileLoop : Nat → Int → Int → List Int
  | 0, _, _ => []
  | fuel + 1, blockNumber, current =>
    if blockNumber ≥ current then current :: whileLoop fuel blockNumber (current + 1) else []

/-- The callback `(error, blockNumber) => ...` of `getBlockNumber` in the interval handler
of `startListening`; `currentLoopId` is the `this.loopId` the handler read when the
timer fired. Returns the new state and the block numbers handed to `_manageBlock`. -/
def tick_onBlockNumber {V : Type} (st : State V) (currentLoopId : Option LoopId)
    (reply : Except String Int) : State V × List Int :=
  if st.loopId = none ∨ st.loopId = some .vmListener then (st, [])
  else
    match reply with
    | .error _ => (st, [])
    | .ok blockNumber =>
      if currentLoopId = st.loopId ∧
          (lastBlockFalsy st.lastBlock ∨ blockNumber > st.lastBlock.getD 0) then
        let lastBlock := if lastBlockFalsy st.lastBlock then blockNumber - 1 else st.lastBlock.getD 0
        let current := lastBlock + 1
        ({ st with lastBlock := some blockNumber },
          whileLoop (blockNumber + 1 - current).toNat blockNumber current)
      else (st, [])

/-- The result of `getBlock(blockNumber, true, ...)`. -/
structure BlockResult where
  number : Int
  transactions : List Transaction
  deriving DecidableEq

/-- The callback `(error, result) => ...` of `getBlock` in `_manageBlock`. -/
def _manageBlock_onBlock {V : Type} (compareByteCode : String → String → Bool)
    (rawDecode : List String → String → Except JsError (List V)) (st : State V)
    (contracts : Option Contracts) (reply : Except String BlockResult) :
    State V × Option EachRun × Option JsError :=
  match reply with
  | .error _ => (st, none, none)
  | .ok result =>
    let block : Block := { type := "web3", number := result.number, transactions := result.transactions }
    let (st', run, e) := _newBlock compareByteCode rawDecode st contracts block
    (st', some run, e)

/-! ## The signature of an ABI entry -/

/-- The signature `name(type1,type2,...)` of an ABI entry, the format of the keys of
`functionHashes`. -/
def signatureOf (e : AbiEntry) : String :=
  e.name.getD "" ++ "(" ++ ",".intercalate ((e.inputs.getD []).map (fun i => i.type)) ++ ")"

/-- The function of the ABI that has the signature `fn`: the entry the specification
decodes a matched call against. The code uses `getFunction` instead. -/
def functionWithSignature (abi : List AbiEntry) (fn : String) : Option AbiEntry :=
  abi.find? (fun e => e.type == "function" && signatureOf e == fn)

/-- The declared input types of an ABI entry, in declaration order. -/
def inputTypes (e : AbiEntry) : List String :=
  (e.inputs.getD []).map (fun i => i.type)

/-! ## Block ranges -/

/-- The block numbers `L + 1, L + 2, ..., H`, in increasing order. -/
def blockRange (L H : Int) : List Int :=
  (List.range (H - L).toNat).map (fun (i : Nat) => L + 1 + (i : Int))

/-- The state a run of `_resolveTx` ends in. -/
def TxDone.state {V : Type} : TxDone V → State V
  | .called st _ => st
  | .thrown st _ => st

/-! ## Sample artifacts and transactions -/

/-- The 32-byte word `5` in hex. -/
def word5 : String := "0000000000000000000000000000000000000000000000000000000000000005"

/-- Contract `Foo` with the single function `bar(uint256)`. -/
def foo : CompiledContract :=
  { interface := [⟨some "bar", "function", some [⟨"x", "uint256"⟩]⟩],
    bytecode := some "6060",
    runtimeBytecode := some "6080",
    functionHashes := [("bar(uint256)", "2fbebd38")] }

/-- Contract `Foo` with the overloads `bar(address)` and `bar(uint256)`, in this order. -/
def fooOverloaded : CompiledContract :=
  { interface := [⟨some "bar", "function", some [⟨"a", "address"⟩]⟩,
                  ⟨some "bar", "function", some [⟨"x", "uint256"⟩]⟩],
    bytecode := some "6060",
    runtimeBytecode := some "6080",
    functionHashes := [("bar(address)", "646ea56d"), ("bar(uint256)", "2fbebd38")] }

/-- Contract `Foo` compiled again without any function. -/
def fooEmpty : CompiledContract :=
  { interface := [], bytecode := some "6060", runtimeBytecode := some "6080", functionHashes := [] }

/-- A call of `bar(uint256)` with argument `5`. -/
def txBar : Transaction :=
  { hash := "0xaa", to_ := some "0xf00", input := "0x2fbebd38" ++ word5 }

/-- A call with a selector `Foo` does not declare. -/
def txUnknown : Transaction :=
  { hash := "0xbb", to_ := some "0xf00", input := "0xffffffff" }

/-- A listener in a polling session with timer `1`, nothing observed yet. -/
def polling : State Nat :=
  startListening new "web3" 1

/-- The polling listener with `Foo` indexed at the address `0xf00`. -/
def indexed : State Nat :=
  { polling with _resolvedContracts := [("0xf00", "Foo")] }

/-- The entry of `txBar` resolved as `bar(uint256)` with the decoded values `[5]`. -/
def barCall : ResolvedCall Nat :=
  { contractName := "Foo", to_ := some "0xf00", fn := "bar(uint256)", params := some [5] }

/-- The entry of `txBar` resolved as the fallback function. -/
def fallbackCall : ResolvedCall Nat :=
  { contractName := "Foo", to_ := some "0xf00", fn := "(fallback)", params := none }

/-- A call to the unindexed address `0xa`. -/
def txA : Transaction :=
  { hash := "0xa1", to_ := some "0xa", input := "0x2fbebd38" ++ word5 }

/-- A call to the unindexed address `0xb`. -/
def txB : Transaction :=
  { hash := "0xb1", to_ := some "0xb", input := "0x2fbebd38" ++ word5 }

/-- Block `7` with the transactions `txA` and `txB`. -/
def block7 : Block :=
  { type := "web3", number := 7, transactions := [txA, txB] }

/-- Block `5`, without transactions. -/
def block5 : Block :=
  { type := "web3", number := 5, transactions := [] }

/-- The polling listener after the tick that observed height `5`, then stopped. -/
def stopped : State Nat :=
  stopListening (tick_onBlockNumber polling (some (.interval 1)) (.ok 5)).1

/-! ## Lemmas on the helpers -/

theorem jsGet_jsSet_same {α : Type} (o : List (String × α)) (k : String) (v : α) :
    jsGet (jsSet o k v) k = some v := by
  induction o with
  | nil => simp [jsSet, jsGet]
  | cons p rest ih =>
    obtain ⟨k', v'⟩ := p
    by_cases h : k' = k
    · simp [jsSet, jsGet, h]
    · simp [jsSet, jsGet, h, ih]

theorem jsGet_jsSet_other {α : Type} (o : List (String × α)) (k k2 : String) (v : α)
    (hne : k2 ≠ k) : jsGet (jsSet o k v) k2 = jsGet o k2 := by
  induction o with
  | nil =>
    have : ¬ k = k2 := fun h => hne h.symm
    simp [jsSet, jsGet, this]
  | cons p rest ih =>
    obtain ⟨k', v'⟩ := p
    by_cases h : k' = k
    · subst h
      have : ¬ k' = k2 := fun h => hne h.symm
      simp [jsSet, jsGet, this]
    · by_cases h2 : k' = k2
      · subst h2
        simp [jsSet, jsGet, hne]
      · simp [jsSet, jsGet, h, h2, ih]

theorem replace0x_append (data : String) : replace0x ("0x" ++ data) = data := by
  have h : ("0x" ++ data).data = '0' :: 'x' :: data.data := by
    simp [String.data_append]
  simp [replace0x, h, dropFirst0x]

theorem find?_eq_none_of_forall {α : Type} (p : α → Bool) (l : List α)
    (h : ∀ a ∈ l, p a = false) : l.find? p = none := by
  rw [List.find?_eq_none]
  intro a ha
  simp [h a ha]

theorem whileLoop_eq (blockNumber : Int) :
    ∀ (fuel : Nat) (current : Int), (blockNumber + 1 - current).toNat ≤ fuel →
      whileLoop fuel blockNumber current =
        (List.range (blockNumber + 1 - current).toNat).map (fun (i : Nat) => current + (i : Int)) := by
  intro fuel
  induction fuel with
  | zero =>
    intro current h
    have h0 : (blockNumber + 1 - current).toNat = 0 := by omega
    simp [whileLoop, h0]
  | succ n ih =>
    intro current h
    by_cases hge : blockNumber ≥ current
    · have hn : (blockNumber + 1 - (current + 1)).toNat ≤ n := by omega
      have hs : (blockNumber + 1 - current).toNat = (blockNumber + 1 - (current + 1)).toNat + 1 := by
        omega
      rw [whileLoop, if_pos hge, ih (current + 1) hn, hs, List.range_succ_eq_map]
      simp only [List.map_cons, List.map_map, Nat.cast_zero, add_zero]
      congr 1
      apply List.map_congr_left
      intro i _
      simp only [Function.comp, Nat.cast_succ]
      omega
    · have h0 : (blockNumber + 1 - current).toNat = 0 := by omega
      simp [whileLoop, hge, h0]

/-! ## Contract matcher: first match in iteration order -/

/-- C10: `_tryResolveContract` returns `k` exactly when the artifact set splits as
`pre ++ (k, c) :: post` with the selected field of `c`, prefixed with `0x`, matching the
code and no contract of `pre` matching; it returns null exactly when no contract matches. -/
theorem tryResolveContract_first_match (compareByteCode : String → String → Bool)
    (codeToResolve : String) (compiledContracts : Contracts) (type : BytecodeField) :
    (∀ k, _tryResolveContract compareByteCode codeToResolve compiledContracts type = some k ↔
      ∃ pre c post, compiledContracts = pre ++ (k, c) :: post ∧
        compareByteCode codeToResolve (concat0x (c.field type)) = true ∧
        ∀ p ∈ pre, compareByteCode codeToResolve (concat0x (p.2.field type)) = false) ∧
    (_tryResolveContract compareByteCode codeToResolve compiledContracts type = none ↔
      ∀ p ∈ compiledContracts,
        compareByteCode codeToResolve (concat0x (p.2.field type)) = false) := by
  induction compiledContracts with
  | nil =>
    refine ⟨fun k => ?_, by simp [_tryResolveContract]⟩
    simp [_tryResolveContract]
  | cons kc rest ih =>
    obtain ⟨k0, c0⟩ := kc
    obtain ⟨ih1, ih2⟩ := ih
    by_cases hm : compareByteCode codeToResolve (concat0x (c0.field type)) = true
    · refine ⟨fun k => ⟨?_, ?_⟩, ?_⟩
      · intro h
        simp only [_tryResolveContract, hm, if_true, Option.some.injEq] at h
        subst h
        exact ⟨[], c0, rest, rfl, hm, by simp⟩
      · rintro ⟨pre, c, post, hsplit, hc, hpre⟩
        cases pre with
        | nil =>
          simp only [List.nil_append, List.cons.injEq, Prod.mk.injEq] at hsplit
          simp [_tryResolveContract, hm, hsplit.1.1]
        | cons q pre' =>
          simp only [List.cons_append, List.cons.injEq] at hsplit
          have := hpre q (by simp)
          rw [← hsplit.1] at this
          simp [hm] at this
      · simp [_tryResolveContract, hm]
    · have hm' : compareByteCode codeToResolve (concat0x (c0.field type)) = false := by
        simpa using hm
      refine ⟨fun k => ⟨?_, ?_⟩, ?_⟩
      · intro h
        simp only [_tryResolveContract, hm', Bool.false_eq_true, if_false] at h
        obtain ⟨pre, c, post, hsplit, hc, hpre⟩ := (ih1 k).1 h
        refine ⟨(k0, c0) :: pre, c, post, by simp [hsplit], hc, ?_⟩
        intro p hp
        rcases List.mem_cons.1 hp with h1 | h1
        · subst h1; exact hm'
        · exact hpre p h1
      · rintro ⟨pre, c, post, hsplit, hc, hpre⟩
        simp only [_tryResolveContract, hm', Bool.false_eq_true, if_false]
        cases pre with
        | nil =>
          simp only [List.nil_append, List.cons.injEq, Prod.mk.injEq] at hsplit
          rw [← hsplit.1.2] at hc
          simp [hm'] at hc
        | cons q pre' =>
          simp only [List.cons_append, List.cons.injEq] at hsplit
          exact (ih1 k).2 ⟨pre', c, post, hsplit.2, hc, fun p hp => hpre p (by simp [hp])⟩
      · simp only [_tryResolveContract, hm', Bool.false_eq_true, if_false, List.mem_cons,
          forall_eq_or_imp, true_and]
        exact ih2

/-! ## Call decoder: unmatched selector -/

/-- C2: when the first 8 hex characters after the `0x` of the input equal no value of the
contract's `functionHashes`, `_resolveFunction` with `isCtor = false` stores under
`tx.hash`, and returns, the call with `fn = "(fallback)"`, `params = null`, `to = tx.to`
and the contract's name. -/
theorem resolveFunction_unmatched_selector_fallback {V : Type}
    (rawDecode : List String → String → Except JsError (List V)) (st : State V)
    (contractName : String) (compiledContracts : Contracts) (c : CompiledContract)
    (tx : Transaction) (data : String)
    (hc : jsGet compiledContracts contractName = some c)
    (hinput : tx.input = "0x" ++ data)
    (hno : ∀ h ∈ c.functionHashes, h.2 ≠ substringTo data 8) :
    ∃ st', _resolveFunction rawDecode st contractName compiledContracts tx false =
        .ok (st', { contractName := contractName, to_ := tx.to_, fn := "(fallback)",
                    params := none }) ∧
      resolvedTransaction st' tx.hash =
        some { contractName := contractName, to_ := tx.to_, fn := "(fallback)", params := none } ∧
      (∀ h, h ≠ tx.hash → resolvedTransaction st' h = resolvedTransaction st h) ∧
      st'._resolvedContracts = st._resolvedContracts ∧ st'.blocks = st.blocks ∧
      st'.lastBlock = st.lastBlock ∧ st'.emitted = st.emitted := by
  have hfind : c.functionHashes.find? (fun h => h.2 == substringTo data 8) = none := by
    apply find?_eq_none_of_forall
    intro h hh
    simpa using hno h hh
  refine ⟨st.setTransaction tx.hash ⟨contractName, tx.to_, "(fallback)", none, none⟩,
    ?_, ?_, ?_, rfl, rfl, rfl, rfl⟩
  · simp only [_resolveFunction, hc, hinput, replace0x_append, hfind, Bool.not_false, if_true]
  · simp [resolvedTransaction, State.setTransaction, jsGet_jsSet_same]
  · intro h hne
    simp [resolvedTransaction, State.setTransaction, jsGet_jsSet_other _ _ _ _ hne]

theorem resolveFunction_unmatched_selector_fallback_witness :
    ∃ st', _resolveFunction (fun _ _ => .ok [5]) polling "Foo" [("Foo", foo)] txUnknown false =
        .ok (st', { contractName := "Foo", to_ := txUnknown.to_, fn := "(fallback)",
                    params := none }) ∧
      resolvedTransaction st' txUnknown.hash =
        some { contractName := "Foo", to_ := txUnknown.to_, fn := "(fallback)", params := none } ∧
      (∀ h, h ≠ txUnknown.hash → resolvedTransaction st' h = resolvedTransaction polling h) ∧
      st'._resolvedContracts = polling._resolvedContracts ∧ st'.blocks = polling.blocks ∧
      st'.lastBlock = polling.lastBlock ∧ st'.emitted = polling.emitted :=
  resolveFunction_unmatched_selector_fallback (fun _ _ => .ok [5]) polling "Foo" [("Foo", foo)] foo
    txUnknown "ffffffff" (by decide) (by decide) (by decide)

/-! ## Block scheduler: restart -/

/-- C9: `stopListening()` then `startListening()` leaves `blocks` empty and `lastBlock`
unset, and `resolvedContract` and `resolvedTransaction` return what they returned before;
`stopListening()` alone changes neither the caches nor the block log. -/
theorem restart_keeps_caches {V : Type} (st : State V) (provider : String) (timer : Nat) :
    (startListening (stopListening st) provider timer).blocks = [] ∧
    (startListening (stopListening st) provider timer).lastBlock = none ∧
    (∀ a, resolvedContract (startListening (stopListening st) provider timer) a =
      resolvedContract st a) ∧
    (∀ h, resolvedTransaction (startListening (stopListening st) provider timer) h =
      resolvedTransaction st h) ∧
    (stopListening st).blocks = st.blocks ∧
    (stopListening st).lastBlock = st.lastBlock ∧
    (∀ a, resolvedContract (stopListening st) a = resolvedContract st a) ∧
    (∀ h, resolvedTransaction (stopListening st) h = resolvedTransaction st h) := by
  by_cases hp : provider = "vm" <;>
    simp [startListening, stopListening, init, resolvedContract, resolvedTransaction, hp]

/-! ## Block scheduler: the polling tick -/

theorem mem_blockRange (L H k : Int) : k ∈ blockRange L H ↔ L < k ∧ k ≤ H := by
  simp only [blockRange, List.mem_map, List.mem_range]
  constructor
  · rintro ⟨i, hi, rfl⟩
    omega
  · intro h
    exact ⟨(k - L - 1).toNat, by omega, by omega⟩

theorem blockRange_pairwise (L H : Int) : (blockRange L H).Pairwise (fun a b => a < b) := by
  simp only [blockRange, List.pairwise_map]
  exact (List.pairwise_lt_range _).imp (fun h => by omega)

/-- C5 as stated fails: with `lastBlock = 0` and reported height `3` the tick dispatches
only block `3`, not `1, 2, 3`; with `lastBlock = 0` and reported height `0` it dispatches
block `0` again; on the first tick of a session with reported height `5` it dispatches
only block `5`. -/
theorem tick_range_counterexample :
    (tick_onBlockNumber { polling with lastBlock := some 0 } (some (.interval 1)) (.ok 3)).2 = [3] ∧
    blockRange 0 3 = [1, 2, 3] ∧
    (tick_onBlockNumber { polling with lastBlock := some 0 } (some (.interval 1)) (.ok 0)).2 = [0] ∧
    polling.lastBlock = none ∧
    (tick_onBlockNumber polling (some (.interval 1)) (.ok 5)).2 = [5] := by
  decide

/-- C5 amended: in a polling session, a tick with a non-zero last observed height `L` and
reported height `H > L` dispatches to `_manageBlock` exactly `L + 1, ..., H`, each once, in
increasing order, and sets `lastBlock` to `H`; with `H ≤ L` it dispatches nothing and leaves
the state unchanged; the first tick of a session (`lastBlock` unset) dispatches exactly
the reported block `H` and sets `lastBlock` to `H`. -/
theorem tick_dispatches_range {V : Type} (st : State V) (timer : Nat) (H : Int)
    (hloop : st.loopId = some (.interval timer)) (hzero : st.lastBlock ≠ some 0) :
    tick_onBlockNumber st (some (.interval timer)) (.ok H) =
      (match st.lastBlock with
       | none => ({ st with lastBlock := some H }, [H])
       | some L => if L < H then ({ st with lastBlock := some H }, blockRange L H) else (st, [])) ∧
    ∀ L, (blockRange L H).Pairwise (fun a b => a < b) ∧ ∀ k, k ∈ blockRange L H ↔ L < k ∧ k ≤ H := by
  refine ⟨?_, fun L => ⟨blockRange_pairwise L H, mem_blockRange L H⟩⟩
  cases hL : st.lastBlock with
  | none =>
    have hfuel : (H + 1 - (H - 1 + 1)).toNat = 1 := by
      have : H + 1 - (H - 1 + 1) = 1 := by omega
      simp [this]
    simp [tick_onBlockNumber, hloop, hL, lastBlockFalsy, hfuel, whileLoop]
  | some L =>
    have hne : L ≠ 0 := by
      intro h
      exact hzero (by rw [hL, h])
    have hf : lastBlockFalsy (some L) = false := by simp [lastBlockFalsy, hne]
    by_cases hlt : L < H
    · have hfuel : (H + 1 - (L + 1)).toNat = (H - L).toNat := by congr 1; omega
      have hw := whileLoop_eq H _ (L + 1) (le_refl _)
      rw [hfuel] at hw
      simp only [tick_onBlockNumber, hloop, hL, hf, Option.getD_some]
      simp [hlt, hfuel, hw, blockRange]
    · simp [tick_onBlockNumber, hloop, hL, hf, hlt]

theorem tick_dispatches_range_witness :
    tick_onBlockNumber { polling with lastBlock := some 4 } (some (.interval 1)) (.ok 7) =
      ({ polling with lastBlock := some 7 }, blockRange 4 7) ∧
    ∀ L, (blockRange L 7).Pairwise (fun a b => a < b) ∧ ∀ k, k ∈ blockRange L 7 ↔ L < k ∧ k ≤ 7 :=
  tick_dispatches_range { polling with lastBlock := some 4 } 1 7 (by decide) (by decide)

/-! ## Transaction resolution -/

theorem truthy_of_ne_empty (s : String) (h : s ≠ "") : truthy (some s) = some s := by
  simp [truthy, h]

theorem resolveFunction_resolvedContracts {V : Type}
    (rawDecode : List String → String → Except JsError (List V)) (st st' : State V)
    (contractName : String) (compiledContracts : Contracts) (tx : Transaction) (isCtor : Bool)
    (r : ResolvedCall V)
    (h : _resolveFunction rawDecode st contractName compiledContracts tx isCtor = .ok (st', r)) :
    st' = st.setTransaction tx.hash r := by
  unfold _resolveFunction at h
  dsimp only at h
  repeat' split at h
  all_goals first | (cases h; done) | (cases h; rfl)

/-- C8: for a transaction whose `to` is in the contract address index, `_resolveTx` ends in
its synchronous part with what `_resolveFunction` gives for the indexed name: it issues
no `getCode` (nor `resolveReceipt`), its result does not depend on the bytecode
comparison, and the index is left as it was. -/
theorem resolveTx_indexed_address_no_lookup {V : Type}
    (compareByteCode : String → String → Bool)
    (rawDecode : List String → String → Except JsError (List V)) (st : State V)
    (contracts : Contracts) (tx : Transaction) (address contractName : String)
    (hto : tx.to_ = some address) (haddr : address ≠ "")
    (hidx : resolvedContract st address = some contractName) (hname : contractName ≠ "") :
    ∃ d, _resolveTx compareByteCode rawDecode st (some contracts) tx = .done d ∧
      d = (match _resolveFunction rawDecode st contractName contracts tx false with
           | .error e => .thrown st e
           | .ok (st', fn) =>
             .called st' ⟨none, some { to_ := tx.to_, contractName := contractName, function := fn }⟩) ∧
      d.state._resolvedContracts = st._resolvedContracts ∧
      resolvedContract d.state address = some contractName ∧
      ∀ compareByteCode2, _resolveTx compareByteCode2 rawDecode st (some contracts) tx = .done d := by
  have hidx' : jsGet st._resolvedContracts address = some contractName := hidx
  cases hf : _resolveFunction rawDecode st contractName contracts tx false with
  | error e =>
    refine ⟨.thrown st e, ?_, rfl, rfl, hidx, ?_⟩
    · simp [_resolveTx, hto, truthy_of_ne_empty _ haddr, hidx', truthy_of_ne_empty _ hname, hf]
    · intro c2
      simp [_resolveTx, hto, truthy_of_ne_empty _ haddr, hidx', truthy_of_ne_empty _ hname, hf]
  | ok p =>
    obtain ⟨st', fn⟩ := p
    have hst := resolveFunction_resolvedContracts rawDecode st st' contractName contracts tx false fn hf
    refine ⟨.called st' ⟨none, some { to_ := tx.to_, contractName := contractName, function := fn }⟩,
      ?_, rfl, ?_, ?_, ?_⟩
    · simp [_resolveTx, hto, truthy_of_ne_empty _ haddr, hidx', truthy_of_ne_empty _ hname, hf]
    · simp [TxDone.state, hst, State.setTransaction]
    · simp [TxDone.state, hst, State.setTransaction, resolvedContract, hidx']
    · intro c2
      simp [_resolveTx, hto, truthy_of_ne_empty _ haddr, hidx', truthy_of_ne_empty _ hname, hf]

theorem resolveTx_indexed_address_no_lookup_witness :
    ∃ d, _resolveTx (fun _ _ => true) (fun _ _ => .ok [5]) indexed (some [("Foo", foo)]) txBar =
        .done d ∧
      d = (match _resolveFunction (fun _ _ => .ok [5]) indexed "Foo" [("Foo", foo)] txBar false with
           | .error e => .thrown indexed e
           | .ok (st', fn) =>
             .called st' ⟨none, some { to_ := txBar.to_, contractName := "Foo", function := fn }⟩) ∧
      d.state._resolvedContracts = indexed._resolvedContracts ∧
      resolvedContract d.state "0xf00" = some "Foo" ∧
      ∀ compareByteCode2,
        _resolveTx compareByteCode2 (fun _ _ => .ok [5]) indexed (some [("Foo", foo)]) txBar =
          .done d :=
  resolveTx_indexed_address_no_lookup (fun _ _ => true) (fun _ _ => .ok [5]) indexed [("Foo", foo)]
    txBar "0xf00" "Foo" (by decide) (by decide) (by decide) (by decide)

/-- C4 as stated fails: `txBar` is resolved against `Foo` and stored as `bar(uint256)`; the
same transaction resolved again, against an artifact set in which `Foo` has no function,
is recomputed and the entry under its hash becomes the fallback call. -/
theorem cache_write_once_counterexample :
    _resolveTx (fun _ _ => true) (fun _ _ => .ok [5]) indexed (some [("Foo", foo)]) txBar =
      .done (.called (indexed.setTransaction "0xaa" barCall)
        ⟨none, some { to_ := some "0xf00", contractName := "Foo", function := barCall }⟩) ∧
    resolvedTransaction (indexed.setTransaction "0xaa" barCall) txBar.hash = some barCall ∧
    _resolveTx (fun _ _ => true) (fun _ _ => .ok [5]) (indexed.setTransaction "0xaa" barCall)
        (some [("Foo", fooEmpty)]) txBar =
      .done (.called ((indexed.setTransaction "0xaa" barCall).setTransaction "0xaa" fallbackCall)
        ⟨none, some { to_ := some "0xf00", contractName := "Foo", function := fallbackCall }⟩) ∧
    resolvedTransaction ((indexed.setTransaction "0xaa" barCall).setTransaction "0xaa" fallbackCall)
      txBar.hash = some fallbackCall ∧
    barCall ≠ fallbackCall := by
  refine ⟨by decide, by decide, by decide, by decide, by decide⟩

/-- C4 amended: a resolution by `_resolveFunction` that returns stores the call it computed
under `tx.hash`, whatever was stored there, and leaves every other key as it was; the call
depends only on the contract name, the artifact set, the transaction and `isCtor`, so the
same resolution from any other state stores and returns the same call. -/
theorem resolveFunction_overwrites_entry {V : Type}
    (rawDecode : List String → String → Except JsError (List V)) (st st' : State V)
    (contractName : String) (compiledContracts : Contracts) (tx : Transaction) (isCtor : Bool)
    (r : ResolvedCall V)
    (h : _resolveFunction rawDecode st contractName compiledContracts tx isCtor = .ok (st', r)) :
    resolvedTransaction st' tx.hash = some r ∧
    (∀ h2, h2 ≠ tx.hash → resolvedTransaction st' h2 = resolvedTransaction st h2) ∧
    ∀ st0 : State V,
      _resolveFunction rawDecode st0 contractName compiledContracts tx isCtor =
        .ok (st0.setTransaction tx.hash r, r) ∧
      resolvedTransaction (st0.setTransaction tx.hash r) tx.hash = some r := by
  have hst := resolveFunction_resolvedContracts rawDecode st st' contractName compiledContracts tx
    isCtor r h
  have hany : ∀ st0 : State V,
      _resolveFunction rawDecode st0 contractName compiledContracts tx isCtor =
        .ok (st0.setTransaction tx.hash r, r) := by
    intro st0
    unfold _resolveFunction at h ⊢
    dsimp only at h ⊢
    repeat' split at h
    all_goals first
      | (cases h; done)
      | (simp only [Except.ok.injEq, Prod.mk.injEq] at h
         obtain ⟨_, h2⟩ := h
         subst h2
         simp_all)
  subst hst
  exact ⟨jsGet_jsSet_same _ _ _, fun h2 hne => jsGet_jsSet_other _ _ _ _ hne,
    fun st0 => ⟨hany st0, jsGet_jsSet_same _ _ _⟩⟩

theorem resolveFunction_overwrites_entry_witness :
    resolvedTransaction (polling.setTransaction "0xaa" barCall) txBar.hash = some barCall ∧
    (∀ h2, h2 ≠ txBar.hash →
      resolvedTransaction (polling.setTransaction "0xaa" barCall) h2 = resolvedTransaction polling h2) ∧
    ∀ st0 : State Nat,
      _resolveFunction (fun _ _ => .ok [5]) st0 "Foo" [("Foo", foo)] txBar false =
        .ok (st0.setTransaction txBar.hash barCall, barCall) ∧
      resolvedTransaction (st0.setTransaction txBar.hash barCall) txBar.hash = some barCall :=
  resolveFunction_overwrites_entry (fun _ _ => .ok [5]) polling (polling.setTransaction "0xaa" barCall)
    "Foo" [("Foo", foo)] txBar false barCall rfl

/-! ## Call decoder: overloaded functions -/

/-- C1 at an overloaded function: `Foo` declares `bar(address)` then `bar(uint256)`; for the
input `0x2fbebd38` followed by the word `5` the selector matches `bar(uint256)`, whose
declared input types are `[uint256]`, but `getFunction` returns the first ABI entry named
`bar` and the stored `params` are the decoding against `[address]`. -/
theorem resolveFunction_overload_decodes_first_namesake {V : Type}
    (rawDecode : List String → String → Except JsError (List V)) (st : State V) :
    (functionWithSignature fooOverloaded.interface "bar(uint256)").map inputTypes =
      some ["uint256"] ∧
    (getFunction fooOverloaded.interface "bar(uint256)").map inputTypes = some ["address"] ∧
    _resolveFunction rawDecode st "Foo" [("Foo", fooOverloaded)] txBar false =
      (match rawDecode ["address"] word5 with
       | .error e => .error e
       | .ok params =>
         .ok (st.setTransaction "0xaa" ⟨"Foo", some "0xf00", "bar(uint256)", some params, none⟩,
              ⟨"Foo", some "0xf00", "bar(uint256)", some params, none⟩)) := by
  refine ⟨by decide, by decide, ?_⟩
  have h1 : jsGet [("Foo", fooOverloaded)] "Foo" = some fooOverloaded := by decide
  have h2 : fooOverloaded.functionHashes.find?
      (fun h => h.2 == substringTo (replace0x txBar.input) 8) = some ("bar(uint256)", "2fbebd38") := by
    decide
  have h3 : getFunction fooOverloaded.interface "bar(uint256)" =
      some ⟨some "bar", "function", some [⟨"a", "address"⟩]⟩ := by decide
  have h4 : substringFrom (replace0x txBar.input) 8 = word5 := by decide
  simp only [_resolveFunction, h1, h2, h3, h4, _decodeInputParams, Bool.not_false, if_true,
    List.map_cons, List.map_nil]
  cases rawDecode ["address"] word5 <;> rfl

/-! ## Resolution pipeline: the block barrier -/

/-- C6 at a block with two transactions to unindexed addresses: `_newBlock` leaves both
`getCode` calls in flight and emits nothing; when the reply to the first is an error,
`newBlock` is emitted at once, while the call of the second transaction is still in
flight, and the closing `cb()` throws; the second transaction completes after `newBlock`. -/
theorem newBlock_emitted_before_sibling_completes
    (compareByteCode : String → String → Bool)
    (rawDecode : List String → String → Except JsError (List Nat)) :
    _newBlock compareByteCode rawDecode polling (some [("Foo", foo)]) block7 =
      ({ polling with blocks := [block7] },
       ⟨block7, 2, false, [⟨txA, [("Foo", foo)], .code⟩, ⟨txB, [("Foo", foo)], .code⟩]⟩, none) ∧
    deliver compareByteCode rawDecode { polling with blocks := [block7] }
        ⟨block7, 2, false, [⟨txA, [("Foo", foo)], .code⟩, ⟨txB, [("Foo", foo)], .code⟩]⟩ 0
        (.code (.error "timeout")) =
      ({ polling with blocks := [block7], emitted := [.newBlock block7, .newTransaction txA] },
       ⟨block7, 2, true, [⟨txB, [("Foo", foo)], .code⟩]⟩, some .callbackAlreadyCalled) ∧
    deliver compareByteCode rawDecode
        { polling with blocks := [block7], emitted := [.newBlock block7, .newTransaction txA] }
        ⟨block7, 2, true, [⟨txB, [("Foo", foo)], .code⟩]⟩ 0 (.code (.ok none)) =
      ({ polling with blocks := [block7],
                      emitted := [.newBlock block7, .newTransaction txA, .newTransaction txB] },
       ⟨block7, 1, true, []⟩, none) := by
  refine ⟨rfl, rfl, rfl⟩

/-! ## Block scheduler: replies after a stop -/

/-- C7 at a stopped session: the tick of timer `1` observed height `5` and dispatched block
`5`; after `stopListening()` a late reply of `getBlockNumber` is discarded, but the late
reply of `getBlock` is handed to `_newBlock`: the block is appended to `blocks` and
`newBlock` is emitted. -/
theorem stale_block_reply_is_processed
    (compareByteCode : String → String → Bool)
    (rawDecode : List String → String → Except JsError (List Nat))
    (contracts : Option Contracts) :
    (tick_onBlockNumber polling (some (.interval 1)) (.ok 5)).2 = [5] ∧
    stopped.loopId = none ∧ stopped.blocks = [] ∧ stopped.emitted = [] ∧
    tick_onBlockNumber stopped (some (.interval 1)) (.ok 6) = (stopped, []) ∧
    _manageBlock_onBlock compareByteCode rawDecode stopped contracts (.ok ⟨5, []⟩) =
      ({ stopped with blocks := [block5], emitted := [.newBlock block5] },
       some ⟨block5, 0, true, []⟩, none) := by
  refine ⟨by decide, by decide, by decide, by decide, by decide, rfl⟩

end TxListener
